/-
Verification of resize_tfrecords_mpi.py, the shard-partitioning and
record resize pipeline of tensorflow-benchmark-util.

The embedding models:
  * the record schema parsed in process_tf_record_file (lines 94-107) as
    the structure SrcExample;
  * the output record built by _convert_to_example (lines 41-78) as the
    structure OutExample;
  * the external TensorFlow / OS primitives (tf.image.decode_jpeg,
    tf.image.resize_images, tf.cast, tf.image.encode_jpeg,
    os.path.basename) as an opaque-operation record ExtOps over an
    abstract image type, since their pixel-level behaviour is outside
    this repository;
  * the per-record body of process_tf_record_file (lines 91-147) as
    processRecord, the per-shard loop as processShard, and the summary
    computation (lines 152-158) as processShardFull; Python exceptions
    (undecodable JPEG, ZeroDivisionError) become the Except error cases;
  * the worker loop of worker (lines 161-171) as workerLoop / workerRun:
    starting at index rank, stepping by size over the sorted shard list.

Python's int() truncates toward zero; pyInt models it on rationals.
-/
import Mathlib

/-- Fatal errors a worker can hit: an undecodable image payload
(tf.image.decode_jpeg raising) or Python's ZeroDivisionError from the
summary lines 152-153. -/
inductive Err where
  | imageCodec : Err
  | zeroDivision : Err
deriving DecidableEq, Repr

/-- Python int() applied to a float value: truncation toward zero. -/
def pyInt (q : ℚ) : ℤ :=
  if 0 ≤ q then ⌊q⌋ else ⌈q⌉

/-- Line 118: resize_factor = 3.0, a local constant of
process_tf_record_file. -/
def resize_factor : ℚ := 3

/-- The fields process_tf_record_file parses from one input record
(lines 97-107).  Byte strings are lists of naturals, float lists are
lists of rationals. -/
structure SrcExample where
  filename : String
  label : ℤ
  synset : String
  human : String
  xmin : List ℚ
  ymin : List ℚ
  xmax : List ℚ
  ymax : List ℚ
  height : ℤ
  width : ℤ
  encoded : List ℕ
deriving DecidableEq, Repr

/-- The output record assembled by _convert_to_example (lines 62-77). -/
structure OutExample where
  height : ℤ
  width : ℤ
  colorspace : String
  channels : ℤ
  label : ℤ
  synset : String
  human : String
  xmin : List ℚ
  xmax : List ℚ
  ymin : List ℚ
  ymax : List ℚ
  bboxLabel : List ℤ
  format : String
  filename : String
  encoded : List ℕ
deriving DecidableEq, Repr

/-- External primitives used by the per-record body, over an abstract
image type: decodeJpeg returns none when the payload is corrupt
(tf.image.decode_jpeg raises), resizeImages takes the new height and
width, castU8 is tf.cast(.., tf.uint8), encodeJpeg re-encodes, and
basename is os.path.basename. -/
structure ExtOps (Img : Type) where
  decodeJpeg : List ℕ → Option Img
  resizeImages : Img → ℤ → ℤ → Img
  castU8 : Img → Img
  encodeJpeg : Img → List ℕ
  basename : String → String

/-- Lines 41-78: _convert_to_example.  Fixed constants colorspace,
channels, image_format (lines 57-59); the per-object label list is
[label] * len(xmin) (line 74); bbox lists pass through unchanged
(lines 70-73). -/
def convert_to_example (opsBasename : String → String)
    (filename : String) (image_buffer : List ℕ) (label : ℤ)
    (synset human : String) (xmin ymin xmax ymax : List ℚ)
    (height width : ℤ) : OutExample :=
  { height := height
    width := width
    colorspace := "RGB"
    channels := 3
    label := label
    synset := synset
    human := human
    xmin := xmin
    xmax := xmax
    ymin := ymin
    ymax := ymax
    bboxLabel := List.replicate xmin.length label
    format := "JPEG"
    filename := opsBasename filename
    encoded := image_buffer }

/-- Lines 94-147: the body of the record loop of
process_tf_record_file for one record: decode JPEG (fatal on corrupt
payload), compute new dimensions with resize_factor, resize, cast,
re-encode, and build the output example. -/
def processRecord {Img : Type} (ops : ExtOps Img) (r : SrcExample) :
    Except Err OutExample :=
  match ops.decodeJpeg r.encoded with
  | none => .error .imageCodec
  | some image =>
    let new_height := pyInt ((r.height : ℚ) * resize_factor)
    let new_width := pyInt ((r.width : ℚ) * resize_factor)
    let resized_image := ops.resizeImages image new_height new_width
    let resized_encoded := ops.encodeJpeg (ops.castU8 resized_image)
    .ok (convert_to_example ops.basename r.filename resized_encoded
      r.label r.synset r.human r.xmin r.ymin r.xmax r.ymax
      new_height new_width)

/-- The record loop of process_tf_record_file (lines 91-147): records
are processed strictly in order; the first fatal error aborts the
shard, records already processed before it were already written. -/
def processShard {Img : Type} (ops : ExtOps Img) :
    List SrcExample → Except Err (List OutExample)
  | [] => .ok []
  | r :: rest =>
    match processRecord ops r with
    | .error e => .error e
    | .ok out =>
      match processShard ops rest with
      | .error e => .error e
      | .ok outs => .ok (out :: outs)

/-- Line 109 accumulation: total byte length of the original encoded
images of a shard. -/
def origLenTotal (records : List SrcExample) : ℕ :=
  (records.map (fun r => r.encoded.length)).sum

/-- Line 131 accumulation: total byte length of the resized encoded
images written to a shard. -/
def resizedLenTotal (outs : List OutExample) : ℕ :=
  (outs.map (fun o => o.encoded.length)).sum

/-- Lines 86-158: process_tf_record_file for a whole shard, including
the summary computation original_len_total / image_count and
resized_len_total / image_count of lines 152-153, which is not guarded:
with image_count = 0 Python raises ZeroDivisionError. -/
def processShardFull {Img : Type} (ops : ExtOps Img)
    (records : List SrcExample) :
    Except Err (List OutExample × ℚ × ℚ) :=
  match processShard ops records with
  | .error e => .error e
  | .ok outs =>
    if records.length = 0 then .error .zeroDivision
    else .ok (outs,
      (origLenTotal records : ℚ) / (records.length : ℚ),
      (resizedLenTotal outs : ℚ) / (records.length : ℚ))

/-- Lines 165-171: the worker loop `i = rank; while i < num_files:
process shard i; i += size`.  Returns the indices of the shards fully
processed, in order, and the error that aborted the worker, if any.
The guard 1 ≤ size (true of every MPI group) makes the loop
terminating; with size = 0 the Python loop would not terminate either.
-/
def workerLoop {α : Type} (process : ℕ → Except Err α)
    (N size i : ℕ) : List ℕ × Option Err :=
  if _h : i < N ∧ 1 ≤ size then
    match process i with
    | .error e => ([], some e)
    | .ok _ =>
      let rest := workerLoop process N size (i + size)
      (i :: rest.1, rest.2)
  else ([], none)
termination_by N - i
decreasing_by
  simp_wf
  omega

/-- Lines 161-171: the worker.  shards is the lexicographically sorted
shard list (sorted(glob(input_files))); shard i is processed whenever
i = rank + k * size < num_files. -/
def workerRun {Img : Type} (ops : ExtOps Img)
    (shards : List (List SrcExample)) (rank size : ℕ) :
    List ℕ × Option Err :=
  workerLoop (fun i => processShardFull ops (shards.getD i []))
    shards.length size rank

/-- The set of shard indices the loop of worker visits when every
shard succeeds: rank, rank+size, rank+2*size, ... below N. -/
def assignedIndices (N size rank : ℕ) : List ℕ :=
  (workerLoop (fun _ => Except.ok ()) N size rank).1

/-- Concrete external operations over a trivial image type, used to
evaluate the pipeline on sample inputs: every payload decodes. -/
def unitOps : ExtOps Unit where
  decodeJpeg := fun _ => some ()
  resizeImages := fun _ _ _ => ()
  castU8 := fun i => i
  encodeJpeg := fun _ => [9, 9]
  basename := fun s => s

/-- Concrete external operations where every payload is corrupt:
decodeJpeg always fails. -/
def badOps : ExtOps Unit where
  decodeJpeg := fun _ => none
  resizeImages := fun _ _ _ => ()
  castU8 := fun i => i
  encodeJpeg := fun _ => [9, 9]
  basename := fun s => s

/-- A sample well-formed input record: 100 x 100 image, one bounding
box. -/
def sampleRecord : SrcExample where
  filename := "dir/img1.jpg"
  label := 7
  synset := "n123"
  human := "fox"
  xmin := [1/4]
  ymin := [1/8]
  xmax := [1/2]
  ymax := [3/4]
  height := 100
  width := 100
  encoded := [1, 2, 3]

/-- The output record the pipeline produces from sampleRecord under
unitOps. -/
def sampleOut : OutExample where
  height := 300
  width := 300
  colorspace := "RGB"
  channels := 3
  label := 7
  synset := "n123"
  human := "fox"
  xmin := [1/4]
  xmax := [1/2]
  ymin := [1/8]
  ymax := [3/4]
  bboxLabel := [7]
  format := "JPEG"
  filename := "dir/img1.jpg"
  encoded := [9, 9]

/-- A 1 x 1 input record, used to compare the hard-coded factor with
a hypothetical supplied factor. -/
def sampleRecordH1 : SrcExample :=
  { sampleRecord with height := 1, width := 1 }

/-- The output the pipeline produces from sampleRecordH1 under
unitOps: dimensions 3 x 3. -/
def sampleOutH1 : OutExample :=
  { sampleOut with height := 3, width := 3 }

instance : DecidableEq (Except Err OutExample) := fun a b =>
  match a, b with
  | .ok x, .ok y => decidable_of_iff (x = y) (by simp)
  | .error x, .error y => decidable_of_iff (x = y) (by simp)
  | .ok _, .error _ => isFalse (by simp)
  | .error _, .ok _ => isFalse (by simp)

/-- Evaluation of the pipeline on the sample record: dimensions 100 x
100 become 300 x 300, bbox lists and metadata pass through. -/
lemma sampleEval : processRecord unitOps sampleRecord = Except.ok sampleOut := by
  simp only [processRecord, unitOps, sampleRecord, sampleOut, convert_to_example,
    pyInt, resize_factor]
  norm_num

/-- Successful record processing is exactly: the payload decodes, and
the output is _convert_to_example applied to the resized payload and
the new dimensions. -/
lemma processRecord_ok_elim {Img : Type} (ops : ExtOps Img) (r : SrcExample)
    (out : OutExample) (h : processRecord ops r = Except.ok out) :
    ∃ image, ops.decodeJpeg r.encoded = some image ∧
      out = convert_to_example ops.basename r.filename
        (ops.encodeJpeg (ops.castU8 (ops.resizeImages image
          (pyInt ((r.height : ℚ) * resize_factor))
          (pyInt ((r.width : ℚ) * resize_factor)))))
        r.label r.synset r.human r.xmin r.ymin r.xmax r.ymax
        (pyInt ((r.height : ℚ) * resize_factor))
        (pyInt ((r.width : ℚ) * resize_factor)) := by
  unfold processRecord at h
  cases hd : ops.decodeJpeg r.encoded with
  | none => rw [hd] at h; cases h
  | some image =>
    rw [hd] at h
    exact ⟨image, rfl, (Except.ok.inj h).symm⟩

/-- Python int() agrees with the floor on nonnegative values. -/
lemma pyInt_eq_floor (q : ℚ) (hq : 0 ≤ q) : pyInt q = ⌊q⌋ := by
  unfold pyInt
  rw [if_pos hq]

/-- Scaling a nonnegative integer by 3.0 and truncating gives exactly
three times the integer. -/
lemma pyInt_intCast_mul_three (z : ℤ) (hz : 0 ≤ z) :
    pyInt ((z : ℚ) * 3) = 3 * z := by
  rw [pyInt_eq_floor _ (mul_nonneg (by exact_mod_cast hz) (by norm_num))]
  rw [show ((z : ℚ) * 3) = ((3 * z : ℤ) : ℚ) by push_cast; ring]
  exact Int.floor_intCast _

/-- C2: for every record with original dimensions (H, W), H ≥ 0 and
W ≥ 0, the dimensions written to the output record equal
(⌊H * 3.0⌋, ⌊W * 3.0⌋) = (3H, 3W), the scale factor of the program
being 3.0 (lines 117-120, 146). -/
theorem C2_dimension_law {Img : Type} (ops : ExtOps Img) (r : SrcExample)
    (out : OutExample) (hH : 0 ≤ r.height) (hW : 0 ≤ r.width)
    (h : processRecord ops r = Except.ok out) :
    out.height = ⌊(r.height : ℚ) * 3⌋ ∧ out.width = ⌊(r.width : ℚ) * 3⌋ ∧
    out.height = 3 * r.height ∧ out.width = 3 * r.width := by
  obtain ⟨image, hd, rfl⟩ := processRecord_ok_elim ops r out h
  have hrf : resize_factor = 3 := rfl
  refine ⟨?_, ?_, ?_, ?_⟩ <;>
    simp only [convert_to_example, hrf]
  · exact pyInt_eq_floor _ (mul_nonneg (by exact_mod_cast hH) (by norm_num))
  · exact pyInt_eq_floor _ (mul_nonneg (by exact_mod_cast hW) (by norm_num))
  · exact pyInt_intCast_mul_three _ hH
  · exact pyInt_intCast_mul_three _ hW

/-- Witness for C2 at the sample record: 100 x 100 becomes 300 x 300.
-/
theorem C2_dimension_law_witness :
    0 ≤ sampleRecord.height ∧ 0 ≤ sampleRecord.width ∧
    processRecord unitOps sampleRecord = Except.ok sampleOut ∧
    (sampleOut.height = ⌊(sampleRecord.height : ℚ) * 3⌋ ∧
     sampleOut.width = ⌊(sampleRecord.width : ℚ) * 3⌋ ∧
     sampleOut.height = 3 * sampleRecord.height ∧
     sampleOut.width = 3 * sampleRecord.width) :=
  ⟨by decide, by decide, sampleEval,
   C2_dimension_law unitOps sampleRecord sampleOut (by decide) (by decide)
     sampleEval⟩

/-- C3: the four bounding-box coordinate lists of the output record
are exactly the lists decoded from the input record (lines 101-104 and
70-73): same lists, unmodified by the rescaling. -/
theorem C3_bbox_invariance {Img : Type} (ops : ExtOps Img)
    (r : SrcExample) (out : OutExample)
    (h : processRecord ops r = Except.ok out) :
    out.xmin = r.xmin ∧ out.ymin = r.ymin ∧
    out.xmax = r.xmax ∧ out.ymax = r.ymax := by
  obtain ⟨image, hd, rfl⟩ := processRecord_ok_elim ops r out h
  exact ⟨rfl, rfl, rfl, rfl⟩

/-- Witness for C3 at the sample record. -/
theorem C3_bbox_invariance_witness :
    processRecord unitOps sampleRecord = Except.ok sampleOut ∧
    (sampleOut.xmin = sampleRecord.xmin ∧
     sampleOut.ymin = sampleRecord.ymin ∧
     sampleOut.xmax = sampleRecord.xmax ∧
     sampleOut.ymax = sampleRecord.ymax) :=
  ⟨sampleEval, C3_bbox_invariance unitOps sampleRecord sampleOut sampleEval⟩

/-- C4: the synthesized per-object label list ([label] * len(xmin),
line 74) has length equal to the number of bounding boxes of the
record (the common length of its four coordinate lists) and every
element equals the scalar class label. -/
theorem C4_label_list {Img : Type} (ops : ExtOps Img) (r : SrcExample)
    (out : OutExample)
    (_hwf : r.ymin.length = r.xmin.length ∧ r.xmax.length = r.xmin.length ∧
      r.ymax.length = r.xmin.length)
    (h : processRecord ops r = Except.ok out) :
    out.bboxLabel.length = r.xmin.length ∧
    ∀ l ∈ out.bboxLabel, l = r.label := by
  obtain ⟨image, hd, rfl⟩ := processRecord_ok_elim ops r out h
  constructor
  · simp [convert_to_example]
  · intro l hl
    exact List.eq_of_mem_replicate hl

/-- Witness for C4 at the sample record: one bounding box, label list
[7]. -/
theorem C4_label_list_witness :
    (sampleRecord.ymin.length = sampleRecord.xmin.length ∧
     sampleRecord.xmax.length = sampleRecord.xmin.length ∧
     sampleRecord.ymax.length = sampleRecord.xmin.length) ∧
    processRecord unitOps sampleRecord = Except.ok sampleOut ∧
    (sampleOut.bboxLabel.length = sampleRecord.xmin.length ∧
     ∀ l ∈ sampleOut.bboxLabel, l = sampleRecord.label) :=
  ⟨by decide, sampleEval,
   C4_label_list unitOps sampleRecord sampleOut (by decide) sampleEval⟩

/-- C6: every encoded output record carries the fixed constants
colorspace = "RGB", channels = 3, format = "JPEG" (lines 57-59 and
65-66, 75), whatever the input record held. -/
theorem C6_fixed_constants {Img : Type} (ops : ExtOps Img)
    (r : SrcExample) (out : OutExample)
    (h : processRecord ops r = Except.ok out) :
    out.colorspace = "RGB" ∧ out.channels = 3 ∧ out.format = "JPEG" := by
  obtain ⟨image, hd, rfl⟩ := processRecord_ok_elim ops r out h
  exact ⟨rfl, rfl, rfl⟩

/-- Witness for C6 at the sample record. -/
theorem C6_fixed_constants_witness :
    processRecord unitOps sampleRecord = Except.ok sampleOut ∧
    (sampleOut.colorspace = "RGB" ∧ sampleOut.channels = 3 ∧
     sampleOut.format = "JPEG") :=
  ⟨sampleEval, C6_fixed_constants unitOps sampleRecord sampleOut sampleEval⟩

/-- Evaluation of the shard loop on a two-record shard. -/
lemma sampleShardEval :
    processShard unitOps [sampleRecord, sampleRecord] =
      Except.ok [sampleOut, sampleOut] := by
  simp [processShard, sampleEval]

/-- C5: when a shard is processed without a fatal error, exactly one
output record is written per input record, in input order (lines
91-147): the output list has the same length and corresponds
pointwise to the input list. -/
theorem C5_record_count {Img : Type} (ops : ExtOps Img)
    (records : List SrcExample) (outs : List OutExample)
    (h : processShard ops records = Except.ok outs) :
    outs.length = records.length ∧
    List.Forall₂ (fun r o => processRecord ops r = Except.ok o)
      records outs := by
  induction records generalizing outs with
  | nil =>
    obtain rfl : ([] : List OutExample) = outs := Except.ok.inj h
    exact ⟨rfl, List.Forall₂.nil⟩
  | cons r rest ih =>
    unfold processShard at h
    cases hr : processRecord ops r with
    | error e => rw [hr] at h; cases h
    | ok out =>
      rw [hr] at h
      cases hrest : processShard ops rest with
      | error e => rw [hrest] at h; cases h
      | ok outs2 =>
        rw [hrest] at h
        obtain rfl : out :: outs2 = outs := Except.ok.inj h
        obtain ⟨hlen, hall⟩ := ih outs2 hrest
        exact ⟨by simp [hlen], List.Forall₂.cons hr hall⟩

/-- Witness for C5 on a concrete two-record shard. -/
theorem C5_record_count_witness :
    processShard unitOps [sampleRecord, sampleRecord] =
      Except.ok [sampleOut, sampleOut] ∧
    (([sampleOut, sampleOut] : List OutExample).length =
      ([sampleRecord, sampleRecord] : List SrcExample).length ∧
     List.Forall₂ (fun r o => processRecord unitOps r = Except.ok o)
       [sampleRecord, sampleRecord] [sampleOut, sampleOut]) :=
  ⟨sampleShardEval,
   C5_record_count unitOps [sampleRecord, sampleRecord]
     [sampleOut, sampleOut] sampleShardEval⟩

/-- C7: the summary computation of lines 152-153 divides by
image_count with no guard: on a shard containing no records the code
performs a division by zero (Python raises ZeroDivisionError), for any
choice of external image operations. -/
theorem C7_empty_shard_divides_by_zero {Img : Type} (ops : ExtOps Img) :
    processShardFull ops [] = Except.error Err.zeroDivision := by
  simp [processShardFull, processShard]

/-- Membership in the index list visited by the worker loop when every
shard succeeds: exactly the indices i, i+size, i+2*size, ... below N.
-/
lemma mem_workerLoop_ok (N size : ℕ) (hs : 1 ≤ size) :
    ∀ i m : ℕ, m ∈ (workerLoop (fun _ => Except.ok ()) N size i).1 ↔
      (m < N ∧ ∃ k, m = i + k * size) := by
  suffices h : ∀ f i m : ℕ, N - i ≤ f →
      (m ∈ (workerLoop (fun _ => Except.ok ()) N size i).1 ↔
        (m < N ∧ ∃ k, m = i + k * size)) by
    intro i m
    exact h (N - i) i m le_rfl
  intro f
  induction f with
  | zero =>
    intro i m hfi
    rw [workerLoop, dif_neg (by omega)]
    simp only [List.not_mem_nil, false_iff, not_and]
    rintro hmN ⟨k, rfl⟩
    have := Nat.le_add_right i (k * size)
    omega
  | succ f2 ih =>
    intro i m hfi
    rw [workerLoop]
    by_cases hg : i < N ∧ 1 ≤ size
    · rw [dif_pos hg]
      dsimp only
      rw [List.mem_cons, ih (i + size) m (by omega)]
      constructor
      · rintro (rfl | ⟨hmN, k, rfl⟩)
        · exact ⟨hg.1, 0, by ring⟩
        · exact ⟨hmN, k + 1, by ring⟩
      · rintro ⟨hmN, k, rfl⟩
        cases k with
        | zero => left; simp
        | succ k2 => right; exact ⟨hmN, k2, by ring⟩
    · rw [dif_neg hg]
      simp only [List.not_mem_nil, false_iff, not_and]
      rintro hmN ⟨k, rfl⟩
      have h1 := Nat.le_add_right i (k * size)
      have h2 : ¬ i < N := fun hiN => hg ⟨hiN, hs⟩
      omega

/-- C1: for every sorted shard list of length N and every group size
size ≥ 1, the index sets assigned to ranks 0..size-1 by the loop of
worker (lines 165-171) are pairwise disjoint and cover exactly
0..N-1. -/
theorem C1_partition (N size : ℕ) (hs : 1 ≤ size) :
    (∀ r1 r2 m : ℕ, r1 < size → r2 < size → r1 ≠ r2 →
      m ∈ assignedIndices N size r1 → m ∉ assignedIndices N size r2) ∧
    (∀ m : ℕ, m < N ↔ ∃ r, r < size ∧ m ∈ assignedIndices N size r) := by
  have hmem := mem_workerLoop_ok N size hs
  constructor
  · intro r1 r2 m h1 h2 hne hm1 hm2
    rw [assignedIndices, hmem] at hm1 hm2
    obtain ⟨-, k1, rfl⟩ := hm1
    obtain ⟨-, k2, he⟩ := hm2
    apply hne
    have h1m : (r1 + k1 * size) % size = r1 := by
      rw [Nat.add_mul_mod_self_right]
      exact Nat.mod_eq_of_lt h1
    have h2m : (r2 + k2 * size) % size = r2 := by
      rw [Nat.add_mul_mod_self_right]
      exact Nat.mod_eq_of_lt h2
    rw [← h1m, he, h2m]
  · intro m
    constructor
    · intro hm
      refine ⟨m % size, Nat.mod_lt m hs, ?_⟩
      rw [assignedIndices, hmem]
      refine ⟨hm, m / size, ?_⟩
      rw [Nat.mul_comm]
      exact (Nat.mod_add_div m size).symm
    · rintro ⟨r, hr, hm⟩
      rw [assignedIndices, hmem] at hm
      exact hm.1

/-- Witness for C1 at the end-to-end example of the specification:
five shards, two workers. -/
theorem C1_partition_witness :
    1 ≤ 2 ∧
    ((∀ r1 r2 m : ℕ, r1 < 2 → r2 < 2 → r1 ≠ r2 →
      m ∈ assignedIndices 5 2 r1 → m ∉ assignedIndices 5 2 r2) ∧
    (∀ m : ℕ, m < 5 ↔ ∃ r, r < 2 ∧ m ∈ assignedIndices 5 2 r)) :=
  ⟨by decide, C1_partition 5 2 (by decide)⟩

/-- C10: a worker whose rank is at least the number of shards never
enters the loop body (line 166: the condition i < num_files fails at
i = rank), processes no shard, writes nothing, and terminates
normally. -/
theorem C10_idle_worker {Img : Type} (ops : ExtOps Img)
    (shards : List (List SrcExample)) (rank size : ℕ)
    (hr : shards.length ≤ rank) :
    workerRun ops shards rank size = ([], none) := by
  rw [workerRun, workerLoop, dif_neg (by omega)]

/-- Witness for C10: one shard, rank 3, group size 2: the worker is
idle. -/
theorem C10_idle_worker_witness :
    ([[sampleRecord]] : List (List SrcExample)).length ≤ 3 ∧
    workerRun unitOps [[sampleRecord]] 3 2 = ([], none) :=
  ⟨by decide, C10_idle_worker unitOps [[sampleRecord]] 3 2 (by decide)⟩

/-- A shard containing a record with an undecodable image payload is
aborted with an error. -/
lemma processShard_error_of_corrupt {Img : Type} (ops : ExtOps Img)
    (records : List SrcExample) (r : SrcExample) (hr : r ∈ records)
    (hc : ops.decodeJpeg r.encoded = none) :
    ∃ e, processShard ops records = Except.error e := by
  induction records with
  | nil => cases hr
  | cons a rest ih =>
    unfold processShard
    cases ha : processRecord ops a with
    | error e => exact ⟨e, rfl⟩
    | ok out =>
      rcases List.mem_cons.mp hr with rfl | hr2
      · unfold processRecord at ha
        rw [hc] at ha
        cases ha
      · obtain ⟨e, he⟩ := ih hr2
        refine ⟨e, ?_⟩
        dsimp only
        rw [he]

/-- The whole-shard processing, summary included, also aborts on a
corrupt record. -/
lemma processShardFull_error_of_corrupt {Img : Type} (ops : ExtOps Img)
    (records : List SrcExample) (r : SrcExample) (hr : r ∈ records)
    (hc : ops.decodeJpeg r.encoded = none) :
    ∃ e, processShardFull ops records = Except.error e := by
  obtain ⟨e, he⟩ := processShard_error_of_corrupt ops records r hr hc
  exact ⟨e, by rw [processShardFull, he]⟩

/-- When the shard at an assigned index j errors, the worker loop ends
with an error and completes no shard at an index of j or beyond. -/
lemma workerLoop_abort {α : Type} (process : ℕ → Except Err α)
    (N size : ℕ) (hs : 1 ≤ size) (e : Err) :
    ∀ k i j : ℕ, j = i + k * size → j < N → process j = Except.error e →
      (workerLoop process N size i).2.isSome = true ∧
      ∀ m ∈ (workerLoop process N size i).1, m < j := by
  intro k
  induction k with
  | zero =>
    intro i j hj hjN hpe
    rw [Nat.zero_mul, Nat.add_zero] at hj
    subst hj
    rw [workerLoop, dif_pos ⟨hjN, hs⟩, hpe]
    exact ⟨rfl, by intro m hm; cases hm⟩
  | succ k2 ih =>
    intro i j hj hjN hpe
    have hexp : j = i + size + k2 * size := by rw [hj]; ring
    have hijt := Nat.le_add_right (i + size) (k2 * size)
    rw [workerLoop, dif_pos ⟨by omega, hs⟩]
    cases hp : process i with
    | error e2 =>
      refine ⟨rfl, ?_⟩
      intro m hm
      cases hm
    | ok a =>
      dsimp only
      have hrec := ih (i + size) j (by omega) hjN hpe
      refine ⟨hrec.1, ?_⟩
      intro m hm
      rcases List.mem_cons.mp hm with rfl | hm2
      · omega
      · exact hrec.2 m hm2

/-- C8: a record with a corrupt (undecodable) image payload in the
shard at assigned index j = rank + k * size makes the worker terminate
with an error, and no shard at an index of j or later in its assigned
sequence completes; there is no per-record skip-and-continue
(lines 114-129, 161-171). -/
theorem C8_fatal_abort {Img : Type} (ops : ExtOps Img)
    (shards : List (List SrcExample)) (rank size j k : ℕ)
    (r : SrcExample) (hs : 1 ≤ size) (hj : j = rank + k * size)
    (hjN : j < shards.length) (hr : r ∈ shards.getD j [])
    (hc : ops.decodeJpeg r.encoded = none) :
    (workerRun ops shards rank size).2.isSome = true ∧
    ∀ m ∈ (workerRun ops shards rank size).1, m < j := by
  obtain ⟨e, he⟩ := processShardFull_error_of_corrupt ops _ r hr hc
  rw [workerRun]
  exact workerLoop_abort _ shards.length size hs e k rank j hj hjN he

/-- Witness for C8: a single shard holding one record whose payload
never decodes, one worker: the run errors out and completes nothing. -/
theorem C8_fatal_abort_witness :
    1 ≤ 1 ∧ 0 = 0 + 0 * 1 ∧
    0 < ([[sampleRecord]] : List (List SrcExample)).length ∧
    sampleRecord ∈ ([[sampleRecord]] : List (List SrcExample)).getD 0 [] ∧
    badOps.decodeJpeg sampleRecord.encoded = none ∧
    ((workerRun badOps [[sampleRecord]] 0 1).2.isSome = true ∧
     ∀ m ∈ (workerRun badOps [[sampleRecord]] 0 1).1, m < 0) :=
  ⟨by decide, by decide, by decide, by simp, rfl,
   C8_fatal_abort badOps [[sampleRecord]] 0 1 0 0 sampleRecord
     (by decide) (by decide) (by decide) (by simp) rfl⟩

/-- Evaluation of the pipeline on the 1 x 1 record. -/
lemma sampleEvalH1 :
    processRecord unitOps sampleRecordH1 = Except.ok sampleOutH1 := by
  simp only [processRecord, unitOps, sampleRecordH1, sampleRecord,
    sampleOutH1, sampleOut, convert_to_example, pyInt, resize_factor]
  norm_num

/-- Counterexample to C9: the transform does not use a supplied scale
factor.  With supplied scaleFactor 2 on a 1 x 1 record the claim
requires output height ⌊1 * 2⌋ = 2, but the code (line 118 hard-codes
resize_factor = 3.0) produces 3. -/
theorem C9_counterexample :
    processRecord unitOps sampleRecordH1 = Except.ok sampleOutH1 ∧
    sampleOutH1.height = 3 ∧
    pyInt ((sampleRecordH1.height : ℚ) * 2) = 2 ∧ (3 : ℤ) ≠ 2 := by
  refine ⟨sampleEvalH1, rfl, ?_, by decide⟩
  simp only [sampleRecordH1, sampleRecord, pyInt]
  norm_num

/-- C9 amended: the scale factor is the fixed constant 3.0, hard-coded
at line 118; it is not configurable, and every processed record's
output dimensions are computed with that constant regardless of any
input. -/
theorem C9_fixed_factor {Img : Type} (ops : ExtOps Img)
    (r : SrcExample) (out : OutExample)
    (h : processRecord ops r = Except.ok out) :
    resize_factor = 3 ∧
    out.height = pyInt ((r.height : ℚ) * resize_factor) ∧
    out.width = pyInt ((r.width : ℚ) * resize_factor) := by
  obtain ⟨image, hd, rfl⟩ := processRecord_ok_elim ops r out h
  exact ⟨rfl, rfl, rfl⟩

/-- Witness for the amended C9 at the sample record. -/
theorem C9_fixed_factor_witness :
    processRecord unitOps sampleRecord = Except.ok sampleOut ∧
    (resize_factor = 3 ∧
     sampleOut.height = pyInt ((sampleRecord.height : ℚ) * resize_factor) ∧
     sampleOut.width = pyInt ((sampleRecord.width : ℚ) * resize_factor)) :=
  ⟨sampleEval, C9_fixed_factor unitOps sampleRecord sampleOut sampleEval⟩
